import Mathlib

/-!
Verification of the smart-serow telemetry backend (src/pi/backend/) against its
specification.  The Python services are shallowly embedded: Python dicts become
association lists over an inductive value type, Python floats become rationals
(with `NaN` represented explicitly, since the code only ever tests values for
NaN-ness and negates them), wall-clock times become rationals, side effects
(serial writes, emit callbacks) become explicit output lists, and library calls
that the repository does not define (`json.loads`, `float`) become function
parameters of the embedding.
-/

set_option autoImplicit false

namespace SmartSerow

/-- Embedding of the Python values stored in the services' telemetry dicts:
`pynone` is Python `None`, `num q` a finite float (modelled as a rational),
`nan` the float NaN, and `pystr` a string (timestamps). -/
inductive PyVal where
  | pynone
  | num (q : ℚ)
  | nan
  | pystr (s : String)
deriving DecidableEq, Repr

/-- A Python dict, embedded as an insertion-ordered association list. -/
abbrev PyDict := List (String × PyVal)

/-- Python `d[k] = v`: replace the value in place if the key exists,
append otherwise (insertion-ordered dict semantics). -/
def dictSet : PyDict → String → PyVal → PyDict
  | [], k, v => [(k, v)]
  | (k', v') :: rest, k, v =>
    if k' = k then (k, v) :: rest else (k', v') :: dictSet rest k v

/-- Python `d.get(k)` where a missing key yields `None`. -/
def dictGet (d : PyDict) (k : String) : PyVal :=
  (d.lookup k).getD PyVal.pynone

/-- The merge guard in `ArduinoService._connect_and_read`:
`val is not None and not (isinstance(val, float) and math.isnan(val))`. -/
def isDefined : PyVal → Bool
  | PyVal.pynone => false
  | PyVal.nan => false
  | _ => true

/-- `collections.deque(maxlen = cap).append x`: append on the right and, once
the capacity is reached, evict from the left. -/
def dequeAppend {α : Type} (cap : ℕ) (buf : List α) (x : α) : List α :=
  if buf.length < cap then buf ++ [x]
  else (buf ++ [x]).drop (buf.length + 1 - cap)

/-- A whole history of appends into an initially empty bounded deque. -/
def pushAll {α : Type} (cap : ℕ) (xs : List α) : List α :=
  xs.foldl (dequeAppend cap) []

theorem dequeAppend_length_le {α : Type} (cap : ℕ) (buf : List α) (x : α) :
    (dequeAppend cap buf x).length ≤ cap := by
  unfold dequeAppend
  split
  · simpa using by omega
  · simp only [List.length_drop, List.length_append, List.length_singleton]
    omega

theorem dequeAppend_eq_drop {α : Type} (cap : ℕ) (buf : List α) (x : α)
    (h : buf.length ≤ cap) :
    dequeAppend cap buf x = (buf ++ [x]).drop (buf.length + 1 - cap) := by
  unfold dequeAppend
  split
  · have : buf.length + 1 - cap = 0 := by omega
    simp [this]
  · rfl

theorem foldl_dequeAppend_eq_drop {α : Type} (cap : ℕ) :
    ∀ (xs : List α) (buf : List α), buf.length ≤ cap →
      xs.foldl (dequeAppend cap) buf =
        (buf ++ xs).drop (buf.length + xs.length - cap) := by
  intro xs
  induction xs with
  | nil =>
    intro buf h
    simp [Nat.sub_eq_zero_of_le h]
  | cons x rest ih =>
    intro buf h
    have hlen := dequeAppend_length_le cap buf x
    have hrec := ih (dequeAppend cap buf x) hlen
    rw [List.foldl_cons, hrec]
    set d := buf.length + 1 - cap with hd
    have hb : dequeAppend cap buf x = (buf ++ [x]).drop d :=
      dequeAppend_eq_drop cap buf x h
    rw [hb]
    have hle : d ≤ (buf ++ [x]).length := by
      simp only [List.length_append, List.length_singleton]; omega
    rw [← List.drop_append_of_le_length hle, List.drop_drop]
    have heq : (buf ++ [x]) ++ rest = buf ++ x :: rest := by simp
    rw [heq]
    congr 1
    simp only [List.length_drop, List.length_append, List.length_singleton,
      List.length_cons, List.length_nil]
    omega

namespace Throttle

/-- The mutable state of `throttle.Throttle`: `_last_emit`, `_min_interval`
and `_pending` (`Option` models the `None` sentinel; the distribution layer
only ever passes non-`None` payload dicts). -/
structure State (α : Type) where
  lastEmit : ℚ
  minInterval : ℚ
  pending : Option α
deriving DecidableEq, Repr

/-- Result of one throttle call: the returned boolean, the state afterwards,
and the sequence of `emit_fn` invocations the call performed. -/
structure EmitResult (α : Type) where
  emitted : Bool
  state : State α
  out : List α
deriving DecidableEq, Repr

/-- `Throttle.maybe_emit(data, emit_fn)` at wall-clock time `now`. -/
def maybe_emit {α : Type} (now : ℚ) (data : α) (t : State α) : EmitResult α :=
  if t.minInterval ≤ now - t.lastEmit then
    ⟨true, { t with lastEmit := now, pending := Option.none }, [data]⟩
  else
    ⟨false, { t with pending := some data }, []⟩

/-- `Throttle.flush(emit_fn)` at wall-clock time `now`. -/
def flush {α : Type} (now : ℚ) (t : State α) : EmitResult α :=
  match t.pending with
  | some d => ⟨true, { t with lastEmit := now, pending := Option.none }, [d]⟩
  | Option.none => ⟨false, t, []⟩

end Throttle

namespace ArduinoService

/-- `ArduinoService.get_latest`: the `{"error": "no data"}` bootstrap answer
before anything has been stored, a defensive copy of `_latest` afterwards. -/
def get_latest (latest : PyDict) : PyDict :=
  if latest.isEmpty then [("error", PyVal.pystr "no data")] else latest

/-- The part of `ArduinoService` state that `send_command` consults:
`_serial` (the transport handle, `Option Unit` models `None`-ness) and
`_connected`. -/
structure SendState where
  serial : Option Unit
  connected : Bool
deriving DecidableEq, Repr

/-- The command line built by `send_command`:
`":".join(["CMD", cmd.upper(), f"{k}={v}"...]) + "\n"`. -/
def commandLine (cmd : String) (params : List (String × String)) : String :=
  String.intercalate ":"
    ("CMD" :: cmd.toUpper :: params.map (fun kv => kv.1 ++ "=" ++ kv.2)) ++ "\n"

/-- `ArduinoService.send_command`.  Returns the boolean result, the lines
written to the transport, and the (unchanged) state; `writeOk` models
whether `self._serial.write`/`flush` raises.  A failed write is modelled as
producing no observable bytes. -/
def send_command (st : SendState) (writeOk : Bool) (cmd : String)
    (params : List (String × String)) : Bool × List String × SendState :=
  if st.serial.isNone || !st.connected then
    (false, [], st)
  else if writeOk then
    (true, [commandLine cmd params], st)
  else
    (false, [], st)

/-- Whitespace bytes stripped by `str.strip()` (the frames on this link are
ASCII). -/
def isWsByte (b : ℕ) : Bool :=
  b == 9 || b == 10 || b == 11 || b == 12 || b == 13 || b == 32

/-- Model of `buf.decode("utf-8", errors="ignore").strip()` at the byte
level: leading and trailing whitespace is removed (decoding with
`errors="ignore"` never lengthens the text, so length bounds transfer). -/
def bytesStrip (buf : List ℕ) : List ℕ :=
  ((buf.dropWhile isWsByte).reverse.dropWhile isWsByte).reverse

/-- `ArduinoService._read_null_terminated`.  The byte stream is a list of
`ser.read(1)` results (`Option.none` is a read timeout, an exhausted list
behaves as perpetual timeout); `buf` is the accumulator (`bytearray()` at
the initial call).  `self._running` is `True` for the whole read, as in a
connected session. -/
def read_null_terminated : List (Option ℕ) → List ℕ → List ℕ
  | [], buf => bytesStrip buf
  | Option.none :: _, buf => if buf.isEmpty then [] else bytesStrip buf
  | some b :: rest, buf =>
    if b == 0 || b == 10 || b == 13 then
      if buf.isEmpty then read_null_terminated rest buf else bytesStrip buf
    else
      if (buf ++ [b]).length > 256 then bytesStrip (buf ++ [b])
      else read_null_terminated rest (buf ++ [b])

/-- `ArduinoService.TSV_FIELDS` (order per PROTOCOL.md). -/
def TSV_FIELDS : List String :=
  ["voltage", "ax", "ay", "az", "gx", "gy", "gz", "roll", "pitch", "yaw",
   "rpm", "gear"]

/-- Python whitespace as matched by the regex class `\s` and stripped by
`str.strip()` (the ASCII range; nothing else occurs on this link). -/
def isSpaceChar (c : Char) : Bool :=
  c == ' ' || c == '\t' || c == '\n' || c == '\r' || c == '\x0b' || c == '\x0c'

/-- `str.strip()` on the text, embedded as a character list. -/
def pyStrip (cs : List Char) : List Char :=
  ((cs.dropWhile isSpaceChar).reverse.dropWhile isSpaceChar).reverse

/-- `str.split(sep)` for a one-character separator: no collapsing of
consecutive separators, empty pieces kept, `[""]` for the empty string. -/
def splitOnChar (sep : Char) : List Char → List (List Char)
  | [] => [[]]
  | c :: cs =>
    let r := splitOnChar sep cs
    if c = sep then [] :: r
    else
      match r with
      | [] => [[c]]
      | g :: gs => (c :: g) :: gs

/-- The per-field body of the `_parse_tsv` loop.  `pf` is the embedding
parameter for the builtin `float()` applied to the stripped field text:
`some q` is a finite parsed value, `Option.none` covers both `ValueError`
and a NaN result — either way the field decodes to NaN. -/
def fieldVal (pf : List Char → Option ℚ) (s : List Char) : PyVal :=
  if (pyStrip s).isEmpty then PyVal.nan
  else
    match pf (pyStrip s) with
    | some q => PyVal.num q
    | Option.none => PyVal.nan

/-- One statement `if k in result and not isnan(result[k]): result[k] =
-result[k]` of the mounting-orientation correction. -/
def negKey (r : PyDict) (k : String) : PyDict :=
  match r.lookup k with
  | some (PyVal.num q) => dictSet r k (PyVal.num (-q))
  | _ => r

/-- The orientation correction applied by `_parse_tsv`: pitch and yaw are
negated (when present and non-NaN), roll is left as-is. -/
def applyCorr (r : PyDict) : PyDict :=
  negKey (negKey r "pitch") "yaw"

/-- Value-level effect of one `negKey` on the value stored under its key:
a number is negated, NaN (and anything else) is untouched. -/
def negIfNum : PyVal → PyVal
  | PyVal.num q => PyVal.num (-q)
  | v => v

/-- Field-level effect of the whole orientation correction: `pitch` and
`yaw` are sign-flipped, every other field is passed through verbatim. -/
def tsvCorrect (k : String) (v : PyVal) : PyVal :=
  if k = "pitch" ∨ k = "yaw" then negIfNum v else v

/-- `ArduinoService._parse_tsv`. -/
def parse_tsv (pf : List Char → Option ℚ) (line : List Char) : Option PyDict :=
  let fields := splitOnChar '\t' line
  if fields.length = TSV_FIELDS.length then
    some (applyCorr ((TSV_FIELDS.zip fields).map fun p => (p.1, fieldVal pf p.2)))
  else
    Option.none

/-- Case-insensitive match of a (pre-lowercased) literal at the head of the
text; returns the remaining text on success. -/
def matchLit : List Char → List Char → Option (List Char)
  | [], cs => some cs
  | _ :: _, [] => Option.none
  | l :: ls, c :: cs => if c.toLower = l then matchLit ls cs else Option.none

/-- The numeric group of the legacy patterns: `(\d+)` or, with `frac`,
`(\d+\.?\d*)`; returns the captured characters. -/
def matchNum (frac : Bool) (cs : List Char) : Option (List Char) :=
  let ds := cs.takeWhile Char.isDigit
  if ds.isEmpty then Option.none
  else
    let rest := cs.drop ds.length
    if frac then
      match rest with
      | '.' :: rest2 => some (ds ++ '.' :: rest2.takeWhile Char.isDigit)
      | _ => some ds
    else some ds

/-- Attempt of one legacy pattern `LIT\s*(NUM)...` at a fixed position. -/
def tryPatternAt (lit : List Char) (frac : Bool) (cs : List Char) :
    Option (List Char) :=
  match matchLit lit cs with
  | some rest => matchNum frac (rest.dropWhile isSpaceChar)
  | Option.none => Option.none

/-- `pattern.search(line)`: leftmost position at which the whole pattern
matches; the trailing optional `V?`/`C?` of the source patterns never
affects the captured group. -/
def searchPattern (lit : List Char) (frac : Bool) : List Char → Option (List Char)
  | [] => Option.none
  | c :: cs =>
    match tryPatternAt lit frac (c :: cs) with
    | some cap => some cap
    | Option.none => searchPattern lit frac cs

/-- Digit characters to a natural number. -/
def digitsToNat (ds : List Char) : ℕ :=
  ds.foldl (fun n c => 10 * n + (c.toNat - 48)) 0

/-- The numeric value of a captured group, as converted by
`float(val) if "." in val else int(val)` (a capture is always digits with at
most one dot); `d.f` has the value `(d * 10^len(f) + f) / 10^len(f)`. -/
def capToQ (cap : List Char) : ℚ :=
  let intPart := cap.takeWhile (fun c => c != '.')
  let fracPart := (cap.drop intPart.length).drop 1
  mkRat (digitsToNat intPart * 10 ^ fracPart.length + digitsToNat fracPart)
    (10 ^ fracPart.length)

/-- The legacy-text fallback of `_parse_line`: the four `PATTERNS` searched
in dict order, matched fields collected, `None` if nothing matched. -/
def legacyParse (cs : List Char) : Option PyDict :=
  let add := fun (name : String) (lit : String) (frac : Bool) =>
    match searchPattern lit.toList frac cs with
    | some cap => [(name, PyVal.num (capToQ cap))]
    | Option.none => ([] : PyDict)
  let result :=
    add "voltage" "v_bat:" true ++ add "rpm" "rpm:" false ++
      add "eng_temp" "eng:" false ++ add "gear" "gear:" false
  if result.isEmpty then Option.none else some result

/-- The JSON branch of `_parse_line`: project the keys `v`, `rpm`, `eng`,
`gear` of the parsed object into canonical names (missing keys give `None`). -/
def jsonProject (obj : PyDict) : PyDict :=
  [("voltage", dictGet obj "v"), ("rpm", dictGet obj "rpm"),
   ("eng_temp", dictGet obj "eng"), ("gear", dictGet obj "gear")]

/-- The non-TSV tail of `_parse_line`: JSON first, legacy patterns second.
`j` is the embedding parameter for `json.loads` restricted to the flat
objects this protocol uses (`Option.none` is `JSONDecodeError`). -/
def parseFallback (j : List Char → Option PyDict) (line : List Char) :
    Option PyDict :=
  match j line with
  | some obj => some (jsonProject obj)
  | Option.none => legacyParse line

/-- `ArduinoService._parse_line`: a line containing a tab is handed to
`_parse_tsv` and its result returned directly; only tab-free lines reach the
JSON/legacy fallbacks. -/
def parse_line (j : List Char → Option PyDict) (pf : List Char → Option ℚ)
    (line : List Char) : Option PyDict :=
  if line.contains '\t' then parse_tsv pf line else parseFallback j line

/-- The merge loop of `_connect_and_read`: each defined (non-`None`,
non-NaN) value of `data` overwrites the corresponding `_latest` entry. -/
def mergeData (latest : PyDict) (data : PyDict) : PyDict :=
  data.foldl (fun acc kv => if isDefined kv.2 then dictSet acc kv.1 kv.2 else acc)
    latest

/-- The full `_latest` update of `_connect_and_read` for a decoded frame
`data` stamped with receive time `t`: `data["time"] = t`, the sparse merge,
then `self._latest["time"] = data["time"]`. -/
def mergeFrame (latest data : PyDict) (t : String) : PyDict :=
  let data' := dictSet data "time" (PyVal.pystr t)
  dictSet (mergeData latest data') "time" (dictGet data' "time")

end ArduinoService

/-- Model of the builtin `float()` on the plain decimal literals
(`[+-]?digits[.digits]`) that appear on this link; `Option.none` models
`ValueError` (and a `"nan"` literal, which decodes to NaN downstream
anyway).  Used to instantiate the `pf` parameter in witnesses. -/
def parseUnsigned (cs : List Char) : Option ℚ :=
  let intPart := cs.takeWhile Char.isDigit
  let rest := cs.drop intPart.length
  match rest with
  | [] =>
    if intPart.isEmpty then Option.none
    else some (mkRat (ArduinoService.digitsToNat intPart) 1)
  | '.' :: fs =>
    let fracPart := fs.takeWhile Char.isDigit
    if fracPart.length = fs.length then
      if intPart.isEmpty && fracPart.isEmpty then Option.none
      else
        some (mkRat
          (ArduinoService.digitsToNat intPart * 10 ^ fracPart.length +
            ArduinoService.digitsToNat fracPart)
          (10 ^ fracPart.length))
    else Option.none
  | _ => Option.none

/-- See `parseUnsigned`: the signed entry point. -/
def pyFloatModel (s : List Char) : Option ℚ :=
  match s with
  | '-' :: cs => (parseUnsigned cs).map Neg.neg
  | '+' :: cs => parseUnsigned cs
  | _ => parseUnsigned s

namespace GPIOService

/-- The debounce state of `GPIOService._poll_loop`: the accepted
`_theme_switch_state`, the `_pending_state` candidate and its
`_pending_count`. -/
structure GpioState where
  accepted : Bool
  pendingState : Option Bool
  pendingCount : ℕ
deriving DecidableEq, Repr

/-- `required_consecutive` as set in `_poll_loop` (~550 ms at 20 Hz). -/
def required_consecutive : ℕ := 11

/-- One iteration of the `_poll_loop` debounce (GPIO working, `current` the
polled reading): a reading matching the accepted state resets the candidate;
a differing reading counts towards the candidate and commits once the count
reaches `required`. -/
def step (required : ℕ) (s : GpioState) (current : Bool) : GpioState :=
  if current ≠ s.accepted then
    let pc := if some current = s.pendingState then s.pendingCount + 1 else 1
    if required ≤ pc then ⟨current, Option.none, 0⟩
    else ⟨s.accepted, some current, pc⟩
  else ⟨s.accepted, Option.none, 0⟩

/-- A whole run of polls, returning the final state and how many times the
accepted state changed along the way. -/
def runCount (required : ℕ) : GpioState → List Bool → GpioState × ℕ
  | s, [] => (s, 0)
  | s, c :: rest =>
    let s' := step required s c
    let r := runCount required s' rest
    (r.1, (if s'.accepted ≠ s.accepted then 1 else 0) + r.2)

end GPIOService

namespace GPSService

/-- One TPV report as projected by `GPSService._connect_and_read` (the dict
literal built from `result.get(...)`; every field may be absent/`None`). -/
structure TPVFix where
  time : Option String
  lat : Option ℚ
  lon : Option ℚ
  alt : Option ℚ
  speed : Option ℚ
  track : Option ℚ
  mode : Option ℤ
  satellites : Option ℤ
deriving DecidableEq, Repr

/-- The value stored under an optional numeric key of a TPV dict. -/
def optQ : Option ℚ → PyVal
  | some q => PyVal.num q
  | Option.none => PyVal.pynone

/-- The value stored under an optional integer key of a TPV dict. -/
def optZ : Option ℤ → PyVal
  | some z => PyVal.num z
  | Option.none => PyVal.pynone

/-- The value stored under the optional `time` key of a TPV dict. -/
def optS : Option String → PyVal
  | some s => PyVal.pystr s
  | Option.none => PyVal.pynone

/-- The TPV dict as the Python code builds it (8 keys, insertion order). -/
def fixToDict (f : TPVFix) : PyDict :=
  [("time", optS f.time), ("lat", optQ f.lat), ("lon", optQ f.lon),
   ("alt", optQ f.alt), ("speed", optQ f.speed), ("track", optQ f.track),
   ("mode", optZ f.mode), ("satellites", optZ f.satellites)]

/-- `GPSService.get_latest`: `_latest` is `{}` (here `Option.none`) until a
report has been stored, and a stored report dict is never empty (it always
carries its 8 keys), so the emptiness test reduces to this match. -/
def get_latest (latest : Option TPVFix) : PyDict :=
  match latest with
  | some f => fixToDict f
  | Option.none => [("error", PyVal.pystr "no data")]

/-- The shared-store part of the reader's state: `_latest`, `_buffer`, and
the `first_fix_timeout` local of `_connect_and_read` (`Option.none` models
`float('inf')`, i.e. the timeout already disabled). -/
structure ReadState where
  latest : Option TPVFix
  buffer : List TPVFix
  firstFixTimeout : Option ℚ
deriving DecidableEq, Repr

/-- The guard `fix.get("lat") is None and fix.get("mode") in (None, 0, 1)`. -/
def noFix (f : TPVFix) : Bool :=
  f.lat.isNone &&
    (f.mode == Option.none || f.mode == some 0 || f.mode == some 1)

/-- Processing of one TPV report by the loop body of
`GPSService._connect_and_read` at wall-clock time `now`, with history
capacity `cap`: an empty report is skipped (or, past the first-fix timeout,
raises `ConnectionError`); any other report disables the timeout, replaces
`_latest`, and is appended to `_buffer` iff it has a latitude. -/
def processTPV (cap : ℕ) (now : ℚ) (st : ReadState) (f : TPVFix) :
    Except String ReadState :=
  if noFix f then
    match st.firstFixTimeout with
    | some t =>
      if t < now then Except.error "No GPS fix within timeout" else Except.ok st
    | Option.none => Except.ok st
  else
    Except.ok
      { latest := some f,
        buffer := if f.lat.isSome then dequeAppend cap st.buffer f else st.buffer,
        firstFixTimeout := Option.none }

/-- The store update performed for every generated report by
`GPSService._stub_mode` (debug/stub path): `_latest` is replaced
unconditionally, `_buffer` appended iff the report has a latitude. -/
def stubStep (cap : ℕ) (st : ReadState) (f : TPVFix) : ReadState :=
  { latest := some f,
    buffer := if f.lat.isSome then dequeAppend cap st.buffer f else st.buffer,
    firstFixTimeout := st.firstFixTimeout }

end GPSService

/-! ## Claim C5: throttle emission -/

/-- C5: per throttle channel, `tryEmit(value)` emits `value` and records the
emission time iff at least `minInterval` has elapsed since the last recorded
emission, and otherwise stores `value` as the sole pending value and returns
not-emitted; `flush()` emits the pending value unconditionally whenever one
is present, clears it, and reports whether anything was emitted. -/
theorem throttle_emit_spec {α : Type} (t : Throttle.State α) (now : ℚ) (data : α) :
    ((Throttle.maybe_emit now data t).emitted = true ↔
      t.minInterval ≤ now - t.lastEmit) ∧
    ((Throttle.maybe_emit now data t).emitted = true →
      Throttle.maybe_emit now data t =
        ⟨true, ⟨now, t.minInterval, Option.none⟩, [data]⟩) ∧
    ((Throttle.maybe_emit now data t).emitted = false →
      Throttle.maybe_emit now data t =
        ⟨false, ⟨t.lastEmit, t.minInterval, some data⟩, []⟩) ∧
    ((Throttle.flush now t).emitted = true ↔ t.pending.isSome = true) ∧
    (∀ d, t.pending = some d →
      Throttle.flush now t = ⟨true, ⟨now, t.minInterval, Option.none⟩, [d]⟩) ∧
    (t.pending = Option.none → Throttle.flush now t = ⟨false, t, []⟩) := by
  obtain ⟨le, mi, p⟩ := t
  by_cases h : mi ≤ now - le
  · cases p <;> simp [Throttle.maybe_emit, Throttle.flush, h]
  · cases p <;> simp [Throttle.maybe_emit, Throttle.flush, h]

/-- Witness for C5 at a concrete channel state. -/
theorem throttle_emit_witness :
    ((1 : ℚ) / 2 ≤ 1 - 0) ∧
      Throttle.maybe_emit (1 : ℚ) (42 : ℚ) ⟨0, 1 / 2, Option.none⟩ =
        ⟨true, ⟨1, 1 / 2, Option.none⟩, [42]⟩ :=
  ⟨by norm_num,
    (throttle_emit_spec ⟨0, 1 / 2, Option.none⟩ 1 42).2.1
      ((throttle_emit_spec ⟨0, 1 / 2, Option.none⟩ 1 42).1.mpr (by norm_num))⟩

/-! ## Claim C7: bounded history buffer -/

/-- C7: a reader's history buffer never holds more than its capacity, and
after inserting `capacity + k` snapshots (k > 0) it contains exactly the
last `capacity` snapshots in arrival order (the oldest `k` evicted). -/
theorem historyBuffer_spec {α : Type} (cap k : ℕ) (xs : List α) :
    (pushAll cap xs).length ≤ cap ∧
      (xs.length = cap + k → 0 < k → pushAll cap xs = xs.drop k) := by
  have hall : pushAll cap xs = xs.drop (xs.length - cap) := by
    have := foldl_dequeAppend_eq_drop cap xs [] (by simp)
    simpa [pushAll] using this
  constructor
  · rw [hall]
    simp only [List.length_drop]
    omega
  · intro hlen _
    rw [hall, hlen]
    congr 1
    omega

/-- Witness for C7 at the default capacity 100 with 101 insertions. -/
theorem historyBuffer_witness :
    (List.range 101).length = 100 + 1 ∧ 0 < 1 ∧
      pushAll 100 (List.range 101) = (List.range 101).drop 1 :=
  ⟨by simp, by decide,
    (historyBuffer_spec 100 1 (List.range 101)).2 (by simp) (by decide)⟩

/-! ## Claim C8: send while disconnected -/

/-- C8: `send_command` while the reader holds no transport handle or is not
connected returns `False`, writes no bytes, and leaves the state unchanged
(nothing is queued or retried). -/
theorem send_command_disconnected_spec (st : ArduinoService.SendState)
    (writeOk : Bool) (cmd : String) (params : List (String × String))
    (h : st.serial = Option.none ∨ st.connected = false) :
    ArduinoService.send_command st writeOk cmd params = (false, [], st) := by
  rcases h with h | h <;> simp [ArduinoService.send_command, h]

/-- Witness for C8: `sendCommand("horn", {state: "ON"})` on a disconnected
reader. -/
theorem send_command_disconnected_witness :
    (({ serial := Option.none, connected := false } :
        ArduinoService.SendState).serial = Option.none) ∧
      ArduinoService.send_command { serial := Option.none, connected := false }
          true "horn" [("state", "ON")] =
        (false, [], { serial := Option.none, connected := false }) :=
  ⟨rfl,
    send_command_disconnected_spec { serial := Option.none, connected := false }
      true "horn" [("state", "ON")] (Or.inl rfl)⟩

/-! ## Claim C10: bootstrap answer of getLatest -/

/-- C10: for both readers, `get_latest` before any data has been stored
returns `{"error": "no data"}`; once data has been stored it returns (a copy
of) the latest state. -/
theorem get_latest_spec :
    ArduinoService.get_latest [] = [("error", PyVal.pystr "no data")] ∧
      (∀ d : PyDict, d ≠ [] → ArduinoService.get_latest d = d) ∧
      GPSService.get_latest Option.none = [("error", PyVal.pystr "no data")] ∧
      (∀ f, GPSService.get_latest (some f) = GPSService.fixToDict f) := by
  refine ⟨rfl, ?_, rfl, fun f => rfl⟩
  intro d hd
  simp [ArduinoService.get_latest, List.isEmpty_iff, hd]

/-- Witness for C10 on a one-entry latest state. -/
theorem get_latest_witness :
    ([("voltage", PyVal.num 1)] : PyDict) ≠ [] ∧
      ArduinoService.get_latest [("voltage", PyVal.num 1)] =
        [("voltage", PyVal.num 1)] :=
  ⟨by decide, get_latest_spec.2.1 [("voltage", PyVal.num 1)] (by decide)⟩

/-! ## Claim C1: wrong-arity frames and format fallback -/

/-- C1 (as amended): a line containing a tab whose tab-separated field
count differs from 12 is rejected by the fixed-arity decoder and
`_parse_line` yields no data immediately — the structured (JSON) and legacy
pattern fallbacks are consulted only for lines containing no tab at all. -/
theorem parse_line_spec (j : List Char → Option PyDict)
    (pf : List Char → Option ℚ) (line : List Char) :
    (line.contains '\t' = true →
      (ArduinoService.splitOnChar '\t' line).length ≠ 12 →
      ArduinoService.parse_line j pf line = Option.none) ∧
    (line.contains '\t' = false →
      ArduinoService.parse_line j pf line = ArduinoService.parseFallback j line) := by
  constructor
  · intro ht hn
    simp only [ArduinoService.parse_line, ht, if_true]
    simp only [ArduinoService.parse_tsv]
    rw [if_neg]
    intro hlen
    exact hn (by simpa [ArduinoService.TSV_FIELDS] using hlen)
  · intro ht
    simp only [ArduinoService.parse_line, ht, Bool.false_eq_true, if_false]

/-- Counterexample to C1 as frozen: the line `"V_bat: 12.4\tRPM: 300"`
contains a tab and has field count 2 ≠ 12, so the fixed-arity path rejects
it; but `_parse_line` then returns `None` immediately instead of falling
through — the legacy-pattern fallback, which would have extracted voltage
and rpm from this very line, is never consulted (the `json.loads` parameter
is instantiated with constant failure, which is its behaviour on this
non-JSON line). -/
theorem parse_line_no_fallthrough_cex :
    ("V_bat: 12.4\tRPM: 300".toList.contains '\t' = true) ∧
      ((ArduinoService.splitOnChar '\t' "V_bat: 12.4\tRPM: 300".toList).length
        = 2) ∧
      ArduinoService.parse_line (fun _ => Option.none) (fun _ => Option.none)
          "V_bat: 12.4\tRPM: 300".toList = Option.none ∧
      ArduinoService.parseFallback (fun _ => Option.none)
          "V_bat: 12.4\tRPM: 300".toList =
        some [("voltage", PyVal.num (mkRat 62 5)), ("rpm", PyVal.num (mkRat 300 1))] :=
  ⟨by decide, by decide, by decide, by decide⟩

/-- Witness for C1 on a two-field tab-separated line. -/
theorem parse_line_wrong_arity_witness :
    ("a\tb".toList.contains '\t' = true) ∧
      ((ArduinoService.splitOnChar '\t' "a\tb".toList).length ≠ 12) ∧
      ArduinoService.parse_line (fun _ => Option.none) (fun _ => Option.none)
          "a\tb".toList = Option.none :=
  ⟨by decide, by decide,
    (parse_line_spec (fun _ => Option.none) (fun _ => Option.none)
        "a\tb".toList).1 (by decide) (by decide)⟩

/-! ## Claim C4: sparse merge into the serial latest state -/

theorem lookup_dictSet :
    ∀ (d : PyDict) (k : String) (v : PyVal) (k' : String),
      (dictSet d k v).lookup k' = if k' = k then some v else d.lookup k'
  | [], k, v, k' => by
    by_cases h : k' = k
    · subst h; simp [dictSet, List.lookup]
    · simp [dictSet, List.lookup, h, beq_eq_false_iff_ne.mpr h]
  | (k₀, v₀) :: rest, k, v, k' => by
    by_cases h0 : k₀ = k
    · subst h0
      by_cases h : k' = k₀
      · subst h; simp [dictSet, List.lookup]
      · simp [dictSet, List.lookup, h, beq_eq_false_iff_ne.mpr h]
    · have ih := lookup_dictSet rest k v k'
      by_cases h : k' = k₀
      · subst h
        simp [dictSet, h0, List.lookup]
      · simp [dictSet, h0, List.lookup, beq_eq_false_iff_ne.mpr h, ih]

theorem mem_keys_dictSet :
    ∀ (d : PyDict) (k : String) (v : PyVal) (k' : String),
      k' ∈ (dictSet d k v).map Prod.fst ↔ k' = k ∨ k' ∈ d.map Prod.fst
  | [], k, v, k' => by simp [dictSet]
  | (k₀, v₀) :: rest, k, v, k' => by
    by_cases h0 : k₀ = k
    · subst h0
      have hred : dictSet ((k₀, v₀) :: rest) k₀ v = (k₀, v) :: rest := by
        simp [dictSet]
      rw [hred, List.map_cons, List.mem_cons, List.map_cons, List.mem_cons]
      tauto
    · have ih := mem_keys_dictSet rest k v k'
      have hred : dictSet ((k₀, v₀) :: rest) k v =
          (k₀, v₀) :: dictSet rest k v := by
        simp [dictSet, h0]
      rw [hred, List.map_cons, List.mem_cons, ih, List.map_cons, List.mem_cons]
      tauto

theorem keys_nodup_dictSet :
    ∀ (d : PyDict) (k : String) (v : PyVal),
      (d.map Prod.fst).Nodup → ((dictSet d k v).map Prod.fst).Nodup
  | [], k, v, _ => by simp [dictSet]
  | (k₀, v₀) :: rest, k, v, h => by
    rw [List.map_cons] at h
    obtain ⟨h1, h2⟩ := List.nodup_cons.mp h
    by_cases h0 : k₀ = k
    · subst h0
      have hred : dictSet ((k₀, v₀) :: rest) k₀ v = (k₀, v) :: rest := by
        simp [dictSet]
      rw [hred, List.map_cons]
      exact List.nodup_cons.mpr ⟨h1, h2⟩
    · have ih := keys_nodup_dictSet rest k v h2
      have hmem : k₀ ∉ (dictSet rest k v).map Prod.fst := by
        rw [mem_keys_dictSet]
        rintro (rfl | hm)
        · exact h0 rfl
        · exact h1 hm
      have hred : dictSet ((k₀, v₀) :: rest) k v = (k₀, v₀) :: dictSet rest k v := by
        simp [dictSet, h0]
      rw [hred, List.map_cons]
      exact List.nodup_cons.mpr ⟨hmem, ih⟩

theorem lookup_eq_none_of_not_mem :
    ∀ (d : PyDict) (k : String), k ∉ d.map Prod.fst → d.lookup k = Option.none
  | [], _, _ => rfl
  | (k₀, v₀) :: rest, k, h => by
    simp only [List.map_cons, List.mem_cons, not_or] at h
    have ih := lookup_eq_none_of_not_mem rest k h.2
    simp [List.lookup, beq_eq_false_iff_ne.mpr h.1, ih]

theorem mem_of_lookup_eq_some :
    ∀ (d : PyDict) (k : String) (v : PyVal),
      d.lookup k = some v → (k, v) ∈ d
  | [], k, v, h => by simp [List.lookup] at h
  | (k₀, v₀) :: rest, k, v, h => by
    by_cases h0 : k = k₀
    · subst h0
      simp only [List.lookup, beq_self_eq_true] at h
      simp only [Option.some.injEq] at h
      subst h
      exact List.mem_cons_self _ _
    · have hbeq : (k == k₀) = false := beq_eq_false_iff_ne.mpr h0
      simp only [List.lookup, hbeq] at h
      exact List.mem_cons_of_mem _ (mem_of_lookup_eq_some rest k v h)

theorem lookup_mergeData :
    ∀ (d : PyDict) (latest : PyDict) (k : String),
      (d.map Prod.fst).Nodup →
      (ArduinoService.mergeData latest d).lookup k =
        match d.lookup k with
        | some v => if isDefined v then some v else latest.lookup k
        | Option.none => latest.lookup k
  | [], latest, k, _ => by simp [ArduinoService.mergeData, List.lookup]
  | (k₀, v₀) :: rest, latest, k, h => by
    rw [List.map_cons] at h
    obtain ⟨h1, h2⟩ := List.nodup_cons.mp h
    have hstep : ArduinoService.mergeData latest ((k₀, v₀) :: rest) =
        ArduinoService.mergeData (if isDefined v₀ then dictSet latest k₀ v₀ else latest) rest :=
      rfl
    rw [hstep, lookup_mergeData rest _ k h2]
    by_cases hk : k = k₀
    · subst hk
      have hnone : rest.lookup k = Option.none :=
        lookup_eq_none_of_not_mem rest k h1
      rw [hnone]
      simp only [List.lookup, beq_self_eq_true]
      by_cases hd : isDefined v₀
      · simp [hd, lookup_dictSet]
      · simp [hd]
    · have hbeq : (k == k₀) = false := beq_eq_false_iff_ne.mpr hk
      simp only [List.lookup, hbeq]
      by_cases hd : isDefined v₀
      · simp only [hd, if_true]
        rw [lookup_dictSet]
        rw [if_neg hk]
      · simp only [hd, Bool.false_eq_true, if_false]

/-- C4: merging a decoded frame into the serial reader's latest state
overwrites exactly those fields whose value is present and neither `None`
nor NaN, leaves every other field at its previous value, stamps the receive
time, and in particular a frame whose fields are all NaN/`None` leaves the
latest state unchanged except for its timestamp. -/
theorem merge_spec (latest data : PyDict) (t : String)
    (hnd : (data.map Prod.fst).Nodup) :
    ((ArduinoService.mergeFrame latest data t).lookup "time" = some (PyVal.pystr t)) ∧
    (∀ k, k ≠ "time" →
      (ArduinoService.mergeFrame latest data t).lookup k =
        match data.lookup k with
        | some v => if isDefined v then some v else latest.lookup k
        | Option.none => latest.lookup k) ∧
    ((∀ p ∈ data, p.2 = PyVal.nan ∨ p.2 = PyVal.pynone) →
      ∀ k, k ≠ "time" →
        (ArduinoService.mergeFrame latest data t).lookup k = latest.lookup k) := by
  have hnd' : ((dictSet data "time" (PyVal.pystr t)).map Prod.fst).Nodup :=
    keys_nodup_dictSet data "time" (PyVal.pystr t) hnd
  have hget : dictGet (dictSet data "time" (PyVal.pystr t)) "time" =
      PyVal.pystr t := by
    unfold dictGet
    rw [lookup_dictSet]
    simp
  have hmain : ∀ k, k ≠ "time" →
      (ArduinoService.mergeFrame latest data t).lookup k =
        match data.lookup k with
        | some v => if isDefined v then some v else latest.lookup k
        | Option.none => latest.lookup k := by
    intro k hk
    unfold ArduinoService.mergeFrame
    dsimp only
    rw [hget, lookup_dictSet, if_neg hk,
      lookup_mergeData (dictSet data "time" (PyVal.pystr t)) latest k hnd',
      lookup_dictSet, if_neg hk]
  refine ⟨?_, hmain, ?_⟩
  · unfold ArduinoService.mergeFrame
    dsimp only
    rw [hget, lookup_dictSet]
    simp
  · intro hall k hk
    rw [hmain k hk]
    cases hv : data.lookup k with
    | none => rfl
    | some v =>
      have hmem := mem_of_lookup_eq_some data k v hv
      have h2 : v = PyVal.nan ∨ v = PyVal.pynone := by
        simpa using hall (k, v) hmem
      rcases h2 with rfl | rfl <;> simp [isDefined]

/-- Witness for C4: an all-NaN frame merged over a populated latest state
leaves the data fields unchanged and restamps only the timestamp. -/
theorem merge_witness :
    ((([("voltage", PyVal.nan), ("rpm", PyVal.nan)] : PyDict).map
        Prod.fst).Nodup) ∧
      (ArduinoService.mergeFrame [("voltage", PyVal.num 12), ("rpm", PyVal.num 3000),
            ("time", PyVal.pystr "T0")]
          [("voltage", PyVal.nan), ("rpm", PyVal.nan)] "T1").lookup "voltage" =
        some (PyVal.num 12) ∧
      (ArduinoService.mergeFrame [("voltage", PyVal.num 12), ("rpm", PyVal.num 3000),
            ("time", PyVal.pystr "T0")]
          [("voltage", PyVal.nan), ("rpm", PyVal.nan)] "T1").lookup "time" =
        some (PyVal.pystr "T1") := by
  have h := merge_spec
    [("voltage", PyVal.num 12), ("rpm", PyVal.num 3000),
      ("time", PyVal.pystr "T0")]
    [("voltage", PyVal.nan), ("rpm", PyVal.nan)] "T1" (by decide)
  refine ⟨by decide, ?_, h.1⟩
  have hv := h.2.2 (by decide) "voltage" (by decide)
  simpa using hv

/-! ## Claim C3: fixed-arity frame decoding -/

theorem lookup_negKey (r : PyDict) (k k' : String) :
    (ArduinoService.negKey r k).lookup k' =
      if k' = k then (r.lookup k).map ArduinoService.negIfNum
      else r.lookup k' := by
  by_cases hk : k' = k
  · subst hk
    cases hv : r.lookup k' with
    | none => simp [ArduinoService.negKey, hv]
    | some v =>
      cases v <;>
        simp [ArduinoService.negKey, hv, ArduinoService.negIfNum, lookup_dictSet]
  · cases hv : r.lookup k with
    | none => simp [ArduinoService.negKey, hv, hk]
    | some v =>
      cases v <;>
        simp [ArduinoService.negKey, hv, hk, ArduinoService.negIfNum,
          lookup_dictSet]

theorem lookup_applyCorr (r : PyDict) (k : String) :
    (ArduinoService.applyCorr r).lookup k =
      (r.lookup k).map (ArduinoService.tsvCorrect k) := by
  unfold ArduinoService.applyCorr
  simp only [lookup_negKey]
  by_cases hy : k = "yaw" <;> by_cases hp : k = "pitch"
  · subst hy; exact absurd hp (by simp)
  · subst hy
    rw [if_pos rfl, if_neg (show ("yaw" : String) ≠ "pitch" by simp)]
    cases hv : r.lookup "yaw" <;>
      simp [ArduinoService.tsvCorrect]
  · subst hp
    rw [if_neg (show ("pitch" : String) ≠ "yaw" by simp), if_pos rfl]
    cases hv : r.lookup "pitch" <;>
      simp [ArduinoService.tsvCorrect]
  · rw [if_neg hy, if_neg hp]
    cases hv : r.lookup k <;>
      simp [ArduinoService.tsvCorrect, hy, hp]

theorem getD_mem :
    ∀ (l : List String) (i : ℕ) (d : String), i < l.length → l.getD i d ∈ l
  | [], i, d, h => by simp at h
  | x :: xs, 0, d, _ => by simp
  | x :: xs, i + 1, d, h => by
    rw [List.getD_cons_succ]
    exact List.mem_cons_of_mem _ (getD_mem xs i d (by simpa using h))

theorem lookup_zipMap (pf : List Char → Option ℚ) :
    ∀ (ns : List String) (vs : List (List Char)) (i : ℕ),
      ns.Nodup → ns.length = vs.length → i < ns.length →
      ((ns.zip vs).map fun p => (p.1, ArduinoService.fieldVal pf p.2)).lookup
          (ns.getD i "") =
        some (ArduinoService.fieldVal pf (vs.getD i []))
  | [], vs, i, _, _, hi => by simp at hi
  | n :: ns', [], i, _, hlen, _ => by simp at hlen
  | n :: ns', v :: vs', 0, _, _, _ => by
    simp [List.lookup]
  | n :: ns', v :: vs', i + 1, hnd, hlen, hi => by
    rw [List.nodup_cons] at hnd
    rw [List.getD_cons_succ, List.getD_cons_succ, List.zip_cons_cons,
      List.map_cons]
    have hmem : ns'.getD i "" ∈ ns' := getD_mem ns' i "" (by simpa using hi)
    have hne : ns'.getD i "" ≠ n := fun he => hnd.1 (he ▸ hmem)
    simp only [List.lookup, beq_eq_false_iff_ne.mpr hne]
    exact lookup_zipMap pf ns' vs' i hnd.2 (by simpa using hlen)
      (by simpa using hi)

/-- C3: a fixed-arity frame with exactly 12 tab-separated fields decodes
successfully; each field carries its parsed floating-point value verbatim
except that pitch and yaw are negated (roll untouched), and an empty or
unparsable field decodes to NaN (both captured by `fieldVal`). -/
theorem parse_tsv_spec (pf : List Char → Option ℚ) (line : List Char)
    (h : (ArduinoService.splitOnChar '\t' line).length = 12) :
    ∃ r, ArduinoService.parse_tsv pf line = some r ∧
      ∀ i, i < 12 →
        r.lookup (ArduinoService.TSV_FIELDS.getD i "") =
          some (ArduinoService.tsvCorrect
            (ArduinoService.TSV_FIELDS.getD i "")
            (ArduinoService.fieldVal pf
              ((ArduinoService.splitOnChar '\t' line).getD i []))) := by
  have hflen : ArduinoService.TSV_FIELDS.length = 12 := by
    simp [ArduinoService.TSV_FIELDS]
  refine ⟨ArduinoService.applyCorr
      ((ArduinoService.TSV_FIELDS.zip
          (ArduinoService.splitOnChar '\t' line)).map
        fun p => (p.1, ArduinoService.fieldVal pf p.2)), ?_, ?_⟩
  · unfold ArduinoService.parse_tsv
    dsimp only
    rw [if_pos (by rw [h, hflen])]
  · intro i hi
    rw [lookup_applyCorr,
      lookup_zipMap pf ArduinoService.TSV_FIELDS
        (ArduinoService.splitOnChar '\t' line) i
        (by simp [ArduinoService.TSV_FIELDS])
        (by rw [h, hflen]) (by rw [hflen]; exact hi)]
    rfl

/-- Witness for C3 on the spec's scenario frame: the pitch field `-2.0`
decodes, sign-flipped, to `2`. -/
theorem parse_tsv_witness :
    ((ArduinoService.splitOnChar '\t'
        "12.4\t0.01\t-0.02\t0.00\t0.1\t0.2\t0.3\t1.5\t-2.0\t10.0\t4200\t3".toList).length
      = 12) ∧
      (ArduinoService.parse_tsv pyFloatModel
          "12.4\t0.01\t-0.02\t0.00\t0.1\t0.2\t0.3\t1.5\t-2.0\t10.0\t4200\t3".toList).map
        (fun r => r.lookup "pitch") = some (some (PyVal.num 2)) := by
  refine ⟨by decide, ?_⟩
  obtain ⟨r, hr, hlook⟩ := parse_tsv_spec pyFloatModel
    "12.4\t0.01\t-0.02\t0.00\t0.1\t0.2\t0.3\t1.5\t-2.0\t10.0\t4200\t3".toList
    (by decide)
  rw [hr]
  have h8 := hlook 8 (by decide)
  have hname : ArduinoService.TSV_FIELDS.getD 8 "" = "pitch" := by decide
  rw [hname] at h8
  simp only [Option.map_some']
  rw [h8]
  decide

/-! ## Claim C9: framing safety cap -/

theorem dropWhile_length_le {α : Type} (p : α → Bool) (l : List α) :
    (l.dropWhile p).length ≤ l.length := by
  induction l with
  | nil => simp
  | cons x xs ih =>
    rw [List.dropWhile_cons]
    split
    · simp only [List.length_cons]
      omega
    · simp

theorem bytesStrip_length_le (buf : List ℕ) :
    (ArduinoService.bytesStrip buf).length ≤ buf.length := by
  unfold ArduinoService.bytesStrip
  calc ((buf.dropWhile ArduinoService.isWsByte).reverse.dropWhile
          ArduinoService.isWsByte).reverse.length
      ≤ (buf.dropWhile ArduinoService.isWsByte).reverse.length := by
        rw [List.length_reverse]
        exact dropWhile_length_le _ _
    _ ≤ buf.length := by
        rw [List.length_reverse]
        exact dropWhile_length_le _ _

theorem read_null_terminated_length_le :
    ∀ (stream : List (Option ℕ)) (buf : List ℕ), buf.length ≤ 256 →
      (ArduinoService.read_null_terminated stream buf).length ≤ 257 := by
  intro stream
  induction stream with
  | nil =>
    intro buf h
    exact le_trans (bytesStrip_length_le buf) (by omega)
  | cons r rest ih =>
    intro buf h
    match r with
    | Option.none =>
      simp only [ArduinoService.read_null_terminated]
      by_cases hb : buf.isEmpty
      · rw [if_pos hb]; simp
      · rw [if_neg hb]; exact le_trans (bytesStrip_length_le buf) (by omega)
    | some b =>
      simp only [ArduinoService.read_null_terminated]
      by_cases ht : (b == 0 || b == 10 || b == 13) = true
      · rw [if_pos ht]
        by_cases hb : buf.isEmpty
        · rw [if_pos hb]; exact ih buf h
        · rw [if_neg hb]; exact le_trans (bytesStrip_length_le buf) (by omega)
      · rw [if_neg ht]
        by_cases hc : (buf ++ [b]).length > 256
        · rw [if_pos hc]
          refine le_trans (bytesStrip_length_le _) ?_
          simp only [List.length_append, List.length_singleton]
          omega
        · rw [if_neg hc]
          exact ih (buf ++ [b]) (by omega)

/-- C9 (as amended): the framing routine never returns a frame longer than
257 bytes — accumulation is forcibly completed as soon as the buffer
exceeds 256 bytes, even when no terminator ever arrives. -/
theorem read_frame_cap_spec (stream : List (Option ℕ)) :
    (ArduinoService.read_null_terminated stream []).length ≤ 257 :=
  read_null_terminated_length_le stream [] (by simp)

set_option maxRecDepth 4000 in
/-- Counterexample to C9 as frozen: a stream of 257 non-terminator bytes
(`'1'` = 49) yields a 257-byte frame, so the routine can return a frame
longer than 256 bytes (the cap check `len(buf) > 256` runs after the
append). -/
theorem read_frame_257_cex :
    (ArduinoService.read_null_terminated
        (List.replicate 257 (some 49)) []).length = 257 := by
  decide

/-! ## Claim C6: digital input debounce -/

theorem runCount_stable (required : ℕ) (c : Bool) :
    ∀ N, GPIOService.runCount required ⟨c, Option.none, 0⟩
        (List.replicate N c) = (⟨c, Option.none, 0⟩, 0) := by
  intro N
  induction N with
  | zero => rfl
  | succ n ih =>
    rw [List.replicate_succ]
    simp only [GPIOService.runCount, GPIOService.step]
    simp [ih]

theorem runCount_append (required : ℕ) (l1 l2 : List Bool) :
    ∀ s, GPIOService.runCount required s (l1 ++ l2) =
      ((GPIOService.runCount required
          (GPIOService.runCount required s l1).1 l2).1,
        (GPIOService.runCount required s l1).2 +
          (GPIOService.runCount required
            (GPIOService.runCount required s l1).1 l2).2) := by
  induction l1 with
  | nil => intro s; simp [GPIOService.runCount]
  | cons x xs ih =>
    intro s
    rw [List.cons_append]
    simp only [GPIOService.runCount]
    rw [ih (GPIOService.step required s x)]
    simp only [Prod.mk.injEq]
    exact ⟨by simp, by omega⟩

theorem runCount_pending (required : ℕ) (a c : Bool) (hc : c ≠ a) :
    ∀ (N j : ℕ), 1 ≤ j → j < required →
      GPIOService.runCount required ⟨a, some c, j⟩ (List.replicate N c) =
        if required ≤ j + N then (⟨c, Option.none, 0⟩, 1)
        else (⟨a, some c, j + N⟩, 0) := by
  intro N
  induction N with
  | zero =>
    intro j h1 hj
    rw [if_neg (by omega)]
    rfl
  | succ n ih =>
    intro j h1 hj
    rw [List.replicate_succ]
    have hstep : GPIOService.step required ⟨a, some c, j⟩ c =
        if required ≤ j + 1 then (⟨c, Option.none, 0⟩ : GPIOService.GpioState)
        else ⟨a, some c, j + 1⟩ := by
      simp [GPIOService.step, hc]
    by_cases hcommit : required ≤ j + 1
    · have hfin : required ≤ j + (n + 1) := by omega
      simp only [GPIOService.runCount, hstep, if_pos hcommit, if_pos hfin]
      simp only [runCount_stable required c n]
      simp [hc]
    · simp only [GPIOService.runCount, hstep, if_neg hcommit]
      rw [ih (j + 1) (by omega) (by omega)]
      by_cases hfin : required ≤ j + (n + 1)
      · have h1' : required ≤ j + 1 + n := by omega
        simp only [if_pos h1', if_pos hfin]
        simp
      · have h1' : ¬ required ≤ j + 1 + n := by omega
        simp only [if_neg h1', if_neg hfin]
        have hjn : j + 1 + n = j + (n + 1) := by omega
        simp [hjn]

/-- C6 (as amended): with consecutive-threshold `required ≥ 1`, a run of
`N ≥ required` identical readings differing from the accepted state changes
the accepted state exactly once (and resets the candidate); a run of fewer
than `required` such readings followed by one reading of the old accepted
state never changes it; and any poll matching the accepted state resets the
candidate and its counter. -/
theorem debounce_spec (required N : ℕ) (a c : Bool)
    (h1 : 1 ≤ required) (hc : c ≠ a) :
    (required ≤ N →
      GPIOService.runCount required ⟨a, Option.none, 0⟩ (List.replicate N c) =
        (⟨c, Option.none, 0⟩, 1)) ∧
    (N < required →
      GPIOService.runCount required ⟨a, Option.none, 0⟩
          (List.replicate N c ++ [a]) = (⟨a, Option.none, 0⟩, 0)) ∧
    (∀ s : GPIOService.GpioState,
      GPIOService.step required s s.accepted = ⟨s.accepted, Option.none, 0⟩) := by
  refine ⟨?_, ?_, ?_⟩
  · intro hN
    obtain ⟨n, rfl⟩ : ∃ n, N = n + 1 := ⟨N - 1, by omega⟩
    rw [List.replicate_succ]
    by_cases hone : required ≤ 1
    · have hstep : GPIOService.step required ⟨a, Option.none, 0⟩ c =
          ⟨c, Option.none, 0⟩ := by
        simp [GPIOService.step, hc, hone]
      simp only [GPIOService.runCount, hstep]
      simp only [runCount_stable required c n]
      simp [hc]
    · have hstep : GPIOService.step required ⟨a, Option.none, 0⟩ c =
          ⟨a, some c, 1⟩ := by
        simp [GPIOService.step, hc, hone]
      simp only [GPIOService.runCount, hstep]
      rw [runCount_pending required a c hc n 1 (by omega) (by omega)]
      have hfin : required ≤ 1 + n := by omega
      rw [if_pos hfin]
      simp
  · intro hN
    match N with
    | 0 =>
      simp [GPIOService.runCount, GPIOService.step]
    | n + 1 =>
      have hone : ¬ required ≤ 1 := by omega
      rw [List.replicate_succ, List.cons_append]
      have hstep : GPIOService.step required ⟨a, Option.none, 0⟩ c =
          ⟨a, some c, 1⟩ := by
        simp [GPIOService.step, hc, hone]
      simp only [GPIOService.runCount, hstep]
      rw [runCount_append]
      rw [runCount_pending required a c hc n 1 (by omega) (by omega)]
      have hnfin : ¬ required ≤ 1 + n := by omega
      rw [if_neg hnfin]
      have hlast : GPIOService.runCount required ⟨a, some c, 1 + n⟩ [a] =
          (⟨a, Option.none, 0⟩, 0) := by
        simp [GPIOService.runCount, GPIOService.step]
      rw [hlast]
      simp
  · intro s
    simp [GPIOService.step]

/-- Counterexample to C6 as frozen: the claim lets `N` be any value
`≥ T` in both halves, but with `T = 11` (the code's threshold) and `N = 12`,
a run of `N - 1 = 11` differing readings followed by one reading of the old
state does change the accepted state (from `false` to `true`, exactly one
change), since `N - 1 ≥ T` already commits the candidate. -/
theorem debounce_overrun_cex :
    GPIOService.required_consecutive = 11 ∧
      GPIOService.runCount GPIOService.required_consecutive
          ⟨false, Option.none, 0⟩ (List.replicate (12 - 1) true ++ [false]) =
        (⟨true, some false, 1⟩, 1) := by
  decide

/-- Witness for C6 at the code's threshold 11 with 11 stable readings. -/
theorem debounce_witness :
    (1 ≤ 11) ∧ (true ≠ false) ∧ (11 ≤ 11) ∧
      GPIOService.runCount 11 ⟨false, Option.none, 0⟩
          (List.replicate 11 true) = (⟨true, Option.none, 0⟩, 1) :=
  ⟨by decide, by decide, by decide,
    (debounce_spec 11 11 false true (by decide) (by decide)).1 (by decide)⟩

/-! ## Claim C2: positioning reader store update -/

/-- C2 (as amended): in the gpsd path, a report with no position and
fix-mode `None`/0/1 is skipped entirely — neither `_latest` nor `_buffer`
changes (within the first-fix window it is silently skipped; past the
window it raises to force a reconnect); every other report fully replaces
`_latest` and is appended to `_buffer` iff it carries a real position.  In
the stub path, every report fully replaces `_latest` and is appended iff it
carries a real position. -/
theorem gps_report_spec (cap : ℕ) (now : ℚ) (st : GPSService.ReadState)
    (f : GPSService.TPVFix) :
    (GPSService.noFix f = true → st.firstFixTimeout = Option.none →
      GPSService.processTPV cap now st f = Except.ok st) ∧
    (∀ t, GPSService.noFix f = true → st.firstFixTimeout = some t → now ≤ t →
      GPSService.processTPV cap now st f = Except.ok st) ∧
    (∀ t, GPSService.noFix f = true → st.firstFixTimeout = some t → t < now →
      GPSService.processTPV cap now st f =
        Except.error "No GPS fix within timeout") ∧
    (GPSService.noFix f = false →
      GPSService.processTPV cap now st f =
        Except.ok
          ⟨some f,
            if f.lat.isSome then dequeAppend cap st.buffer f else st.buffer,
            Option.none⟩) ∧
    (GPSService.stubStep cap st f =
      ⟨some f,
        if f.lat.isSome then dequeAppend cap st.buffer f else st.buffer,
        st.firstFixTimeout⟩) := by
  refine ⟨?_, ?_, ?_, ?_, rfl⟩
  · intro hf ht
    simp [GPSService.processTPV, hf, ht]
  · intro t hf ht hle
    simp [GPSService.processTPV, hf, ht, not_lt.mpr hle]
  · intro t hf ht hlt
    simp [GPSService.processTPV, hf, ht, hlt]
  · intro hf
    simp [GPSService.processTPV, hf]

/-- Counterexample to C2 as frozen: a connected reader in the gpsd path
that already has a fix stored receives a no-fix report (`lat = None`,
`mode = 1`); the report is processed without error but `_latest` is *not*
replaced by it — the no-fix report is skipped, so loss of signal is not
observable through `getLatest` on this path. -/
theorem gps_no_fix_not_stored_cex :
    GPSService.processTPV 100 (10 : ℚ)
        ⟨some ⟨some "t0", some 35, some 139, some 40, some 5, some 90,
            some 3, some 8⟩,
          [⟨some "t0", some 35, some 139, some 40, some 5, some 90,
            some 3, some 8⟩],
          Option.none⟩
        ⟨some "t1", Option.none, Option.none, Option.none, Option.none,
          Option.none, some 1, some 0⟩ =
      Except.ok
        ⟨some ⟨some "t0", some 35, some 139, some 40, some 5, some 90,
            some 3, some 8⟩,
          [⟨some "t0", some 35, some 139, some 40, some 5, some 90,
            some 3, some 8⟩],
          Option.none⟩ ∧
    (some (⟨some "t0", some 35, some 139, some 40, some 5, some 90,
        some 3, some 8⟩ : GPSService.TPVFix) ≠
      some ⟨some "t1", Option.none, Option.none, Option.none, Option.none,
        Option.none, some 1, some 0⟩) := by
  refine ⟨rfl, by decide⟩

/-- Witness for C2 on a real 3D-fix report replacing the latest state. -/
theorem gps_report_witness :
    GPSService.noFix ⟨some "t2", some 35, some 139, some 40, some 5,
        some 90, some 3, some 8⟩ = false ∧
      GPSService.processTPV 100 (10 : ℚ) ⟨Option.none, [], some 5⟩
          ⟨some "t2", some 35, some 139, some 40, some 5, some 90,
            some 3, some 8⟩ =
        Except.ok
          ⟨some ⟨some "t2", some 35, some 139, some 40, some 5, some 90,
              some 3, some 8⟩,
            dequeAppend 100 []
              ⟨some "t2", some 35, some 139, some 40, some 5, some 90,
                some 3, some 8⟩,
            Option.none⟩ :=
  ⟨by decide, by
    have h :=
      (gps_report_spec 100 10 ⟨Option.none, [], some 5⟩
        ⟨some "t2", some 35, some 139, some 40, some 5, some 90,
          some 3, some 8⟩).2.2.2.1 (by decide)
    simpa using h⟩

end SmartSerow
